import Mathlib

/-!
# PID steering controller

A shallow embedding of `src/PID.h`, `src/PID.cpp` and the controller-facing part of
`src/main.cpp`, in two readings of the C++ type `double`.

* The exact model (`PID`, `onTelemetry`, ...) reads a `double` as the exact number it stands
  for.  It carries the statements about single updates, the formula of `TotalError`, the
  frame of `Init` and the order of query and update in the handlers.
* The binary64 model (`Double`, `F64.PID`, `F64.onTelemetry`, ...) rounds every operation
  and has infinities and NaN.  It carries the statements that depend on them: what a run of
  updates accumulates, and what the clamp lets through.
-/

/-- The data members of `class PID` (PID.h): three errors and three coefficients. -/
structure PID where
  p_error_ : ℚ
  i_error_ : ℚ
  d_error_ : ℚ
  tau_p_ : ℚ
  tau_i_ : ℚ
  tau_d_ : ℚ
deriving DecidableEq

namespace PID

/-- The constructor `PID::PID()`: every member is initialised to `0.0`.  (Lean cannot
hold a constant `PID.PID` next to the type `PID`, hence the suffix.) -/
def PID_ctor : PID :=
  { tau_p_ := 0, tau_d_ := 0, tau_i_ := 0, p_error_ := 0, d_error_ := 0, i_error_ := 0 }

/-- The method `PID::Init(k_p, k_i, k_d)`: three assignments to the coefficients. -/
def Init (self : PID) (k_p k_i k_d : ℚ) : PID :=
  let s1 := { self with tau_p_ := k_p }
  let s2 := { s1 with tau_d_ := k_d }
  { s2 with tau_i_ := k_i }

/-- The method `PID::UpdateError(cte)`: the three assignments, executed in source order,
each one reading the state left by the one before it.  Exact reading: the subtraction and
the addition do not round; `F64.PID.UpdateError` is the same method over binary64. -/
def UpdateError (self : PID) (cte : ℚ) : PID :=
  let s1 := { self with d_error_ := cte - self.p_error_ }
  let s2 := { s1 with i_error_ := s1.i_error_ + cte }
  { s2 with p_error_ := cte }

/-- The method `PID::TotalError()`; in C++ the unary minus binds to `tau_p_` alone. -/
def TotalError (self : PID) : ℚ :=
  (-self.tau_p_) * self.p_error_ - self.tau_d_ * self.d_error_ - self.tau_i_ * self.i_error_

end PID

/-! ## The controller-facing part of `main.cpp` -/

/-- The two clamping statements of the telemetry handler (main.cpp, lines 92-93):
`if (steer_value > 1.0) steer_value = 1.0; if (steer_value < -1.0) steer_value = -1.0;`.
Exact reading: every value compares; `F64.clampSteer` has the comparisons of `double`,
which a NaN fails. -/
def clampSteer (steer_value : ℚ) : ℚ :=
  let steer_value := if steer_value > 1 then 1 else steer_value
  let steer_value := if steer_value < -1 then -1 else steer_value
  steer_value

/-- The JSON object the telemetry handler sends back (`msgJson`). -/
structure SteerMsg where
  steering_angle : ℚ
  throttle : ℚ
deriving DecidableEq

/-- The telemetry branch of the `onMessage` handler (main.cpp, lines 85-106), for an event
whose parsed cross-track error is `cte`: the steering value is computed inline from the
members of `pid`, clamped, sent with throttle `0.25`, and only then `pid.UpdateError(cte)`
runs.  The result is the message sent and the controller afterwards. -/
def onTelemetry (pid : PID) (cte : ℚ) : SteerMsg × PID :=
  let steer_value :=
    (-pid.tau_p_) * pid.p_error_ - pid.tau_d_ * pid.d_error_ - pid.tau_i_ * pid.i_error_
  let steer_value := clampSteer steer_value
  let msgJson : SteerMsg := { steering_angle := steer_value, throttle := 1 / 4 }
  (msgJson, pid.UpdateError cte)

/-- The `onConnection` handler (main.cpp, lines 134-135): `pid.UpdateError(0.0)`. -/
def onConnection (pid : PID) : PID :=
  pid.UpdateError 0

/-- The controller as `main` configures it before the hub runs: `PID pid;` followed by
`pid.Init(p, i, d)` with `p = 0.085`, `i = 0.0008`, `d = 0.95`. -/
def mainPid : PID :=
  PID.PID_ctor.Init (85 / 1000) (8 / 10000) (95 / 100)

/-- The state after the first connection: `main`'s configured controller, then
`onConnection`. -/
def connectedPid : PID :=
  onConnection mainPid

/-- The state `main`'s controller is in after connecting and one telemetry event with
`cte = 1`. -/
def drivingPid : PID :=
  (onTelemetry connectedPid 1).2

/-! ## `hasData` (main.cpp) over `std::string` -/

/-- The value `std::string::npos`, that is `size_t(-1)` with a 64-bit `size_t`. -/
def npos : ℕ := 2 ^ 64 - 1

/-- First index at or after `i` (the index of the head of the first argument) at which
`pat` occurs, `npos` when there is none. -/
def findFrom (pat : List Char) : List Char → ℕ → ℕ
  | [], i => if pat.isEmpty then i else npos
  | c :: cs, i => if pat.isPrefixOf (c :: cs) then i else findFrom pat cs (i + 1)

/-- The call `s.find(pat)` of `std::string`: the position of the first occurrence of `pat`
in `s`, `npos` when `pat` does not occur. -/
def find (s pat : List Char) : ℕ :=
  findFrom pat s 0

/-- The call `s.find_first_of(chars)` of `std::string`: the position of the first character
of `s` that is one of `chars`, `npos` when there is none. -/
def find_first_of (s chars : List Char) : ℕ :=
  if s.findIdx (fun c => chars.contains c) < s.length then
    s.findIdx (fun c => chars.contains c)
  else npos

/-- The call `s.find_last_of(chars)` of `std::string`: the position of the last character of
`s` that is one of `chars`, `npos` when there is none. -/
def find_last_of (s chars : List Char) : ℕ :=
  if s.reverse.findIdx (fun c => chars.contains c) < s.length then
    s.length - 1 - s.reverse.findIdx (fun c => chars.contains c)
  else npos

/-- The call `s.substr(pos, n)` of `std::string`: `none` stands for the `out_of_range`
exception thrown when `pos > s.size()`; otherwise the characters from `pos` on, at most `n`
of them. -/
def substr (s : List Char) (pos n : ℕ) : Option (List Char) :=
  if pos > s.length then none else some ((s.drop pos).take n)

/-- The function `hasData` of main.cpp.  The positions are `size_t` values, so
`b2 - b1 + 1` is computed modulo `2 ^ 64`. -/
def hasData (s : List Char) : Option (List Char) :=
  let found_null := find s ['n', 'u', 'l', 'l']
  let b1 := find_first_of s ['[']
  let b2 := find_last_of s [']']
  if found_null ≠ npos then
    some []
  else if b1 ≠ npos ∧ b2 ≠ npos then
    substr s b1 (((b2 + (2 ^ 64 - b1)) % 2 ^ 64 + 1) % 2 ^ 64)
  else
    some []

/-- A websocket message the `onMessage` handler passes to `hasData`: it is longer than two
characters and starts with "42".  Its text is `42]a[`. -/
def wrappedMsg : List Char :=
  ['4', '2', ']', 'a', '[']

/-! ## The same code over IEEE 754 doubles

The model above reads every `double` as the exact number it stands for.  That says what
the code's formulas denote, and nothing about rounding, overflow or NaN.  The definitions
below embed the same source lines over binary64 values: each arithmetic operation is
rounded once, to nearest with ties to even, as the code's `double` operations are. -/

/-- A value of the C++ type `double` (IEEE 754 binary64): NaN, an infinity with its sign,
the negative zero, or a finite value given by the rational number it stands for (`fin 0` is
the positive zero).  The operations below only produce `fin q` for representable `q`. -/
inductive Double where
  | nan
  | inf (neg : Bool)
  | negZero
  | fin (q : ℚ)
deriving DecidableEq

namespace Double

/-- The rational `2 ^ e` for an integer exponent. -/
def pow2 (e : ℤ) : ℚ :=
  if 0 ≤ e then ((2 ^ e.toNat : ℕ) : ℚ) else 1 / ((2 ^ (-e).toNat : ℕ) : ℚ)

/-- Binary logarithm of a natural number, rounded down, by halving at most `fuel` times. -/
def log2Fuel : ℕ → ℕ → ℕ
  | 0, _ => 0
  | fuel + 1, n => if n < 2 then 0 else log2Fuel fuel (n / 2) + 1

/-- Binary logarithm of a natural number, rounded down (`0` at `0`). -/
def log2 (n : ℕ) : ℕ :=
  log2Fuel n n

/-- Binary logarithm of a positive rational, rounded down: the logarithms of numerator and
denominator differ from it by at most one, and one comparison settles which. -/
def ilog2 (a : ℚ) : ℤ :=
  let k : ℤ := (log2 a.num.natAbs : ℤ) - (log2 a.den : ℤ)
  if pow2 k ≤ a then k else k - 1

/-- Round a positive rational to a multiple of the binary64 unit in its binade: 53
significant bits, exponent not below that of the subnormals (`2 ^ (-1074)`), to nearest,
ties to the even significand.  The exponent is not bounded above here. -/
def roundMag (a : ℚ) : ℚ :=
  let e := max (ilog2 a - 52) (-1074)
  let x := a / pow2 e
  let f := Rat.floor x
  let r := x - f
  let m := if r < 1 / 2 then f else if 1 / 2 < r then f + 1 else if f % 2 = 0 then f else f + 1
  (m : ℚ) * pow2 e

/-- The binary64 result of an operation whose exact result is `q`: `q` rounded to nearest,
ties to even; an infinity when the rounded magnitude reaches `2 ^ 1024`; a zero with the
sign of `q` when it rounds to nothing.  An exact zero gets the sign `zeroNeg`, which
depends on the operation. -/
def round (q : ℚ) (zeroNeg : Bool) : Double :=
  if q = 0 then (if zeroNeg then negZero else fin 0)
  else
    let r := roundMag (if q < 0 then -q else q)
    if pow2 1024 ≤ r then inf (decide (q < 0))
    else if r = 0 then (if q < 0 then negZero else fin 0)
    else fin (if q < 0 then -r else r)

/-- The `double` a decimal literal of the source, or `std::stod` on decimal text, stands
for: the nearest binary64 value. -/
def ofRat (q : ℚ) : Double :=
  round q false

/-- The sign bit of a value that is not NaN. -/
def signBit : Double → Bool
  | nan => false
  | inf s => s
  | negZero => true
  | fin q => decide (q < 0)

/-- Whether the value is NaN. -/
def isNaN : Double → Bool
  | nan => true
  | _ => false

/-- Unary minus on `double`. -/
def neg : Double → Double
  | nan => nan
  | inf s => inf (!s)
  | negZero => fin 0
  | fin q => if q = 0 then negZero else fin (-q)

/-- The number a finite value stands for (both zeros stand for `0`). -/
def toRat : Double → ℚ
  | fin q => q
  | _ => 0

/-- Addition on `double`: NaN propagates, infinities of opposite sign give NaN, and a
finite sum is the exact sum rounded; an exact zero sum is negative only when both operands
are negative zeros. -/
def add : Double → Double → Double
  | nan, _ => nan
  | _, nan => nan
  | inf s, inf t => if s = t then inf s else nan
  | inf s, _ => inf s
  | _, inf t => inf t
  | x, y => round (x.toRat + y.toRat) (x.signBit && y.signBit)

/-- Subtraction on `double`: `x - y` is `x + (-y)`, signs of zero included. -/
def sub (x y : Double) : Double :=
  add x (neg y)

/-- Multiplication on `double`: NaN propagates, infinity times zero is NaN, and otherwise
the sign is the exclusive or of the signs and a finite product is the exact product
rounded. -/
def mul : Double → Double → Double
  | nan, _ => nan
  | _, nan => nan
  | inf s, inf t => inf (xor s t)
  | inf s, y => if y.toRat = 0 then nan else inf (xor s y.signBit)
  | x, inf t => if x.toRat = 0 then nan else inf (xor x.signBit t)
  | x, y => round (x.toRat * y.toRat) (xor x.signBit y.signBit)

/-- The comparison `x < y` on `double`: false whenever an operand is NaN. -/
def lt : Double → Double → Bool
  | nan, _ => false
  | _, nan => false
  | inf s, inf t => s && !t
  | inf s, _ => s
  | _, inf t => !t
  | x, y => decide (x.toRat < y.toRat)

/-- The comparison `x > y` on `double`. -/
def gt (x y : Double) : Bool :=
  lt y x

/-- The comparison `x <= y` on `double`: false whenever an operand is NaN. -/
def le : Double → Double → Bool
  | nan, _ => false
  | _, nan => false
  | inf s, inf t => s || !t
  | inf s, _ => s
  | _, inf t => !t
  | x, y => decide (x.toRat ≤ y.toRat)

end Double

namespace F64

/-- The data members of `class PID` (PID.h) as doubles. -/
structure PID where
  p_error_ : Double
  i_error_ : Double
  d_error_ : Double
  tau_p_ : Double
  tau_i_ : Double
  tau_d_ : Double
deriving DecidableEq

namespace PID

/-- The constructor `PID::PID()`: every member is initialised to `0.0`. -/
def PID_ctor : PID :=
  { tau_p_ := .fin 0, tau_d_ := .fin 0, tau_i_ := .fin 0,
    p_error_ := .fin 0, d_error_ := .fin 0, i_error_ := .fin 0 }

/-- The method `PID::Init(k_p, k_i, k_d)`: three assignments to the coefficients. -/
def Init (self : PID) (k_p k_i k_d : Double) : PID :=
  let s1 := { self with tau_p_ := k_p }
  let s2 := { s1 with tau_d_ := k_d }
  { s2 with tau_i_ := k_i }

/-- The method `PID::UpdateError(cte)`: `d_error_ = cte - p_error_; i_error_ += cte;
p_error_ = cte;` in source order, with the subtraction and the addition of `double`. -/
def UpdateError (self : PID) (cte : Double) : PID :=
  let s1 := { self with d_error_ := Double.sub cte self.p_error_ }
  let s2 := { s1 with i_error_ := Double.add s1.i_error_ cte }
  { s2 with p_error_ := cte }

/-- The method `PID::TotalError()`:
`-tau_p_ * p_error_ - tau_d_ * d_error_ - tau_i_ * i_error_`, parsed as C++ parses it. -/
def TotalError (self : PID) : Double :=
  Double.sub
    (Double.sub (Double.mul (Double.neg self.tau_p_) self.p_error_)
      (Double.mul self.tau_d_ self.d_error_))
    (Double.mul self.tau_i_ self.i_error_)

end PID

/-- The two clamping statements of the telemetry handler (main.cpp, lines 92-93) with the
comparisons of `double`. -/
def clampSteer (steer_value : Double) : Double :=
  let steer_value := if Double.gt steer_value (.fin 1) then .fin 1 else steer_value
  let steer_value :=
    if Double.lt steer_value (Double.neg (.fin 1)) then Double.neg (.fin 1) else steer_value
  steer_value

/-- The JSON object the telemetry handler sends back (`msgJson`). -/
structure SteerMsg where
  steering_angle : Double
  throttle : Double
deriving DecidableEq

/-- The telemetry branch of the `onMessage` handler (main.cpp, lines 85-106) for an event
whose `cte` text `std::stod` parsed to `cte`: the message sent and the controller
afterwards. -/
def onTelemetry (pid : PID) (cte : Double) : SteerMsg × PID :=
  let steer_value :=
    Double.sub
      (Double.sub (Double.mul (Double.neg pid.tau_p_) pid.p_error_)
        (Double.mul pid.tau_d_ pid.d_error_))
      (Double.mul pid.tau_i_ pid.i_error_)
  let steer_value := clampSteer steer_value
  let msgJson : SteerMsg := { steering_angle := steer_value, throttle := Double.ofRat (1 / 4) }
  (msgJson, pid.UpdateError cte)

/-- The `onConnection` handler (main.cpp, lines 134-135): `pid.UpdateError(0.0)`. -/
def onConnection (pid : PID) : PID :=
  pid.UpdateError (.fin 0)

/-- The controller as `main` configures it: `PID pid;` then `pid.Init(p, i, d)` with the
literals `0.085`, `0.0008`, `0.95`. -/
def mainPid : PID :=
  PID.PID_ctor.Init (Double.ofRat (85 / 1000)) (Double.ofRat (8 / 10000))
    (Double.ofRat (95 / 100))

/-- The controller after a run of telemetry events with the given readings; the messages
sent are dropped. -/
def afterEvents (pid : PID) (ctes : List Double) : PID :=
  ctes.foldl (fun s cte => (onTelemetry s cte).2) pid

end F64

/-- Three telemetry readings, the parses of `1e16`, `1` and `-1e16`. -/
def driftReadings : List Double :=
  [Double.ofRat 10000000000000000, Double.ofRat 1, Double.ofRat (-10000000000000000)]

/-- The controller of `main` after connecting and three telemetry events whose readings are
the parses of `1e308`, `1e308` and `-1e308`. -/
def overflowedPid : F64.PID :=
  F64.afterEvents (F64.onConnection F64.mainPid)
    [Double.ofRat (10 ^ 308), Double.ofRat (10 ^ 308), Double.ofRat (-10 ^ 308)]

/-! ## Theorems about the controller -/

/-- C1: from every state and for every reading `cte`, `UpdateError cte` leaves
`d_error_ = cte - p` with `p` the proportional error before the call, `i_error_ = i + cte`,
`p_error_ = cte`, and the three coefficients as they were. -/
theorem C1_UpdateError_spec (s : PID) (cte : ℚ) :
    (s.UpdateError cte).d_error_ = cte - s.p_error_ ∧
    (s.UpdateError cte).i_error_ = s.i_error_ + cte ∧
    (s.UpdateError cte).p_error_ = cte ∧
    (s.UpdateError cte).tau_p_ = s.tau_p_ ∧
    (s.UpdateError cte).tau_i_ = s.tau_i_ ∧
    (s.UpdateError cte).tau_d_ = s.tau_d_ :=
  ⟨rfl, rfl, rfl, rfl, rfl, rfl⟩

/-- C2 as stated fails on its own example: with gains p = 2, i = 0.5, d = 1 on a fresh
controller, after `UpdateError 3` the code's `TotalError` is `-10.5`, not `-13.5`. -/
theorem C2_stated_value_fails :
    ((PID.PID_ctor.Init 2 (1 / 2) 1).UpdateError 3).TotalError = -(21 / 2) ∧
    ((PID.PID_ctor.Init 2 (1 / 2) 1).UpdateError 3).TotalError ≠ -(27 / 2) := by
  have h : ((PID.PID_ctor.Init 2 (1 / 2) 1).UpdateError 3).TotalError = -(21 / 2) := by
    norm_num [PID.TotalError, PID.UpdateError, PID.Init, PID.PID_ctor]
  refine ⟨h, ?_⟩
  rw [h]; norm_num

/-- C2, amended: `TotalError` returns exactly `-(tau_p_ * p_error_) - (tau_d_ * d_error_) -
(tau_i_ * i_error_)` in every state, unclamped: with gains p = 2, i = 0.5, d = 1 on a fresh
controller, after `UpdateError 3` the result is `-10.5`, of magnitude greater than 1. -/
theorem C2_TotalError_formula (s : PID) :
    s.TotalError = -(s.tau_p_ * s.p_error_) - (s.tau_d_ * s.d_error_) - (s.tau_i_ * s.i_error_) ∧
    ((PID.PID_ctor.Init 2 (1 / 2) 1).UpdateError 3).TotalError = -(21 / 2) ∧
    1 < |((PID.PID_ctor.Init 2 (1 / 2) 1).UpdateError 3).TotalError| := by
  have h : ((PID.PID_ctor.Init 2 (1 / 2) 1).UpdateError 3).TotalError = -(21 / 2) := by
    norm_num [PID.TotalError, PID.UpdateError, PID.Init, PID.PID_ctor]
  refine ⟨?_, h, ?_⟩
  · simp only [PID.TotalError]; ring
  · rw [h, abs_neg, abs_of_pos] <;> norm_num

/-- C4: in every state (so in every state reached by `UpdateError` calls), `Init kP kI kD`
stores `kP`, `kI`, `kD` as `tau_p_`, `tau_i_`, `tau_d_`, whatever the gains were before, and
leaves `p_error_`, `d_error_` and `i_error_` exactly as they were. -/
theorem C4_Init_frame (s : PID) (kP kI kD : ℚ) :
    (s.Init kP kI kD).tau_p_ = kP ∧
    (s.Init kP kI kD).tau_i_ = kI ∧
    (s.Init kP kI kD).tau_d_ = kD ∧
    (s.Init kP kI kD).p_error_ = s.p_error_ ∧
    (s.Init kP kI kD).d_error_ = s.d_error_ ∧
    (s.Init kP kI kD).i_error_ = s.i_error_ :=
  ⟨rfl, rfl, rfl, rfl, rfl, rfl⟩

/-- C7: from every state, `UpdateError e1` followed by `UpdateError e2` leaves
`d_error_ = e2 - e1`; in particular on a fresh controller. -/
theorem C7_derivative_two_steps (s : PID) (e1 e2 : ℚ) :
    ((s.UpdateError e1).UpdateError e2).d_error_ = e2 - e1 ∧
    ((PID.PID_ctor.UpdateError e1).UpdateError e2).d_error_ = e2 - e1 :=
  ⟨rfl, rfl⟩

/-! ## Theorems about the handlers of `main.cpp` -/

/-- C5 as stated fails: on the first telemetry event after connecting, with `cte = 1`, the
handler sends steering `0` (computed from the state before the reading is applied), while
update-then-query would give the clamped `TotalError` of the updated state, `-1`. -/
theorem C5_update_first_fails :
    (onTelemetry connectedPid 1).1.steering_angle = 0 ∧
    clampSteer (connectedPid.UpdateError 1).TotalError = -1 ∧
    (onTelemetry connectedPid 1).1.steering_angle ≠
      clampSteer (connectedPid.UpdateError 1).TotalError := by
  have h1 : (onTelemetry connectedPid 1).1.steering_angle = 0 := by
    norm_num [onTelemetry, clampSteer, connectedPid, onConnection, mainPid, PID.UpdateError,
      PID.Init, PID.PID_ctor]
  have h2 : clampSteer (connectedPid.UpdateError 1).TotalError = -1 := by
    norm_num [clampSteer, connectedPid, onConnection, mainPid, PID.TotalError, PID.UpdateError,
      PID.Init, PID.PID_ctor]
  refine ⟨h1, h2, ?_⟩
  rw [h1, h2]; norm_num

/-- C5, amended: for every telemetry event carrying `cte`, the handler queries first and
updates afterwards: the steering it sends is the clamped `TotalError` of the controller as
the previous event (or the connection) left it, it is the same whatever `cte` is, the
controller afterwards is `UpdateError cte` of the one before, and the reading first shows
in the steering sent for the next event. -/
theorem C5_query_then_update (pid : PID) (cte : ℚ) :
    (onTelemetry pid cte).1.steering_angle = clampSteer pid.TotalError ∧
    (onTelemetry pid cte).2 = pid.UpdateError cte ∧
    (∀ cte2 : ℚ, (onTelemetry pid cte2).1 = (onTelemetry pid cte).1) ∧
    (∀ cte2 : ℚ, (onTelemetry (onTelemetry pid cte).2 cte2).1.steering_angle =
      clampSteer (pid.UpdateError cte).TotalError) :=
  ⟨rfl, rfl, fun _ => rfl, fun _ => rfl⟩

/-- C6 as stated fails: after one reading `cte = 1` the controller has `p_error_ = 1` and
`d_error_ = 1`; a new connection then leaves `d_error_ = -1`, not the `1` it was. -/
theorem C6_derivative_not_kept :
    drivingPid.d_error_ = 1 ∧
    (onConnection drivingPid).d_error_ = -1 ∧
    ¬ ((onConnection drivingPid).p_error_ = 0 ∧
       (onConnection drivingPid).i_error_ = drivingPid.i_error_ ∧
       (onConnection drivingPid).d_error_ = drivingPid.d_error_ ∧
       (onConnection drivingPid).tau_p_ = drivingPid.tau_p_ ∧
       (onConnection drivingPid).tau_i_ = drivingPid.tau_i_ ∧
       (onConnection drivingPid).tau_d_ = drivingPid.tau_d_) := by
  have h1 : drivingPid.d_error_ = 1 := by
    norm_num [drivingPid, onTelemetry, connectedPid, onConnection, mainPid, PID.UpdateError,
      PID.Init, PID.PID_ctor]
  have h2 : (onConnection drivingPid).d_error_ = -1 := by
    norm_num [drivingPid, onTelemetry, connectedPid, onConnection, mainPid, PID.UpdateError,
      PID.Init, PID.PID_ctor]
  refine ⟨h1, h2, ?_⟩
  rintro ⟨-, -, h, -⟩
  rw [h1, h2] at h
  norm_num at h

/-- C6, amended: in every state, the new-connection handler leaves `p_error_ = 0`,
`d_error_ = 0 - p` with `p` the proportional error before the connection event, and
`i_error_` and the three coefficients as they were. -/
theorem C6_onConnection_effect (pid : PID) :
    (onConnection pid).p_error_ = 0 ∧
    (onConnection pid).d_error_ = 0 - pid.p_error_ ∧
    (onConnection pid).i_error_ = pid.i_error_ ∧
    (onConnection pid).tau_p_ = pid.tau_p_ ∧
    (onConnection pid).tau_i_ = pid.tau_i_ ∧
    (onConnection pid).tau_d_ = pid.tau_d_ := by
  refine ⟨rfl, rfl, ?_, rfl, rfl, rfl⟩
  show pid.i_error_ + 0 = pid.i_error_
  exact add_zero _

/-- Zero readings keep zeroed errors at zero, whatever the coefficients. -/
theorem iterate_UpdateError_zero (n : ℕ) (s : PID)
    (hp : s.p_error_ = 0) (hd : s.d_error_ = 0) (hi : s.i_error_ = 0) :
    (fun t : PID => t.UpdateError 0)^[n] s = s := by
  induction n with
  | zero => rfl
  | succ n ih =>
    rw [Function.iterate_succ_apply]
    have hs : s.UpdateError 0 = s := by
      cases s
      simp only [PID.UpdateError] at *
      subst hp hd hi
      simp
    rw [hs, ih]

/-- C9: for every `n` and every choice of gains, after `n` calls of `UpdateError 0` on a
fresh controller the three error fields are still `0` and `TotalError` returns `0`. -/
theorem C9_zero_input (n : ℕ) (k_p k_i k_d : ℚ) :
    ((fun t : PID => t.UpdateError 0)^[n] (PID.PID_ctor.Init k_p k_i k_d)).p_error_ = 0 ∧
    ((fun t : PID => t.UpdateError 0)^[n] (PID.PID_ctor.Init k_p k_i k_d)).d_error_ = 0 ∧
    ((fun t : PID => t.UpdateError 0)^[n] (PID.PID_ctor.Init k_p k_i k_d)).i_error_ = 0 ∧
    ((fun t : PID => t.UpdateError 0)^[n] (PID.PID_ctor.Init k_p k_i k_d)).TotalError = 0 ∧
    (((fun t : PID => t.UpdateError 0)^[n] PID.PID_ctor).Init k_p k_i k_d).TotalError = 0 ∧
    (fun t : PID => t.UpdateError 0)^[n] PID.PID_ctor = PID.PID_ctor := by
  rw [iterate_UpdateError_zero n (PID.PID_ctor.Init k_p k_i k_d) rfl rfl rfl,
    iterate_UpdateError_zero n PID.PID_ctor rfl rfl rfl]
  refine ⟨rfl, rfl, rfl, ?_, ?_, rfl⟩ <;>
    simp [PID.TotalError, PID.Init, PID.PID_ctor]

/-! ## Theorems about `hasData` -/

/-- A position returned by `find_first_of` is inside the string and holds one of the
characters searched for. -/
theorem find_first_of_found (s chars : List Char) (h : find_first_of s chars ≠ npos) :
    ∃ c, s[find_first_of s chars]? = some c ∧ chars.contains c = true := by
  unfold find_first_of at h ⊢
  split_ifs at h ⊢ with hlt
  · exact ⟨s[s.findIdx fun c => chars.contains c], List.getElem?_eq_getElem hlt,
      List.findIdx_getElem⟩
  · exact absurd rfl h

/-- A position returned by `find_last_of` is inside the string, holds one of the characters
searched for, and no later position does. -/
theorem find_last_of_found (s chars : List Char) (h : find_last_of s chars ≠ npos) :
    (∃ c, s[find_last_of s chars]? = some c ∧ chars.contains c = true) ∧
    ∀ k c, find_last_of s chars < k → s[k]? = some c → chars.contains c = false := by
  unfold find_last_of at h ⊢
  split_ifs at h ⊢ with hlt
  · have hr : s.reverse.findIdx (fun c => chars.contains c) < s.reverse.length := by
      simpa using hlt
    have hb : s.length - 1 - s.reverse.findIdx (fun c => chars.contains c) < s.length := by
      omega
    constructor
    · refine ⟨s[s.length - 1 - s.reverse.findIdx fun c => chars.contains c],
        List.getElem?_eq_getElem hb, ?_⟩
      have h1 := @List.findIdx_getElem _ (fun c => chars.contains c) s.reverse hr
      rw [List.getElem_reverse] at h1
      exact h1
    · intro k c hk hc
      have hkl : k < s.length := by
        by_contra hn
        rw [List.getElem?_eq_none (not_lt.mp hn)] at hc
        exact Option.noConfusion hc
      have hj : s.length - 1 - k < s.reverse.findIdx (fun c => chars.contains c) := by omega
      have h2 := List.not_of_lt_findIdx hj
      rw [List.getElem_reverse] at h2
      have hidx : s.length - 1 - (s.length - 1 - k) = k := by omega
      rw [List.getElem?_eq_getElem hkl] at hc
      have hc2 : s[k] = c := Option.some.inj hc
      simp only [hidx] at h2
      rw [← hc2]
      exact h2
  · exact absurd rfl h

/-- The call to `substr` in `hasData` never throws: `hasData` returns a string on every
input. -/
theorem hasData_total (s : List Char) : ∃ r, hasData s = some r := by
  unfold hasData
  simp only
  split_ifs with h0 h1
  · exact ⟨[], rfl⟩
  · obtain ⟨c, hc, -⟩ := find_first_of_found s ['['] h1.1
    have hb : find_first_of s ['['] < s.length := by
      by_contra hn
      rw [List.getElem?_eq_none (not_lt.mp hn)] at hc
      exact Option.noConfusion hc
    unfold substr
    rw [if_neg (by omega)]
    exact ⟨_, rfl⟩
  · exact ⟨[], rfl⟩

/-- When the string holds no "null" and its first '[' is not after its last ']', `hasData`
returns the characters from that '[' through that ']', a string that begins with '[' and
ends with ']'. -/
theorem hasData_ordered (s : List Char) (hlen : s.length < 2 ^ 64)
    (hnull : find s ['n', 'u', 'l', 'l'] = npos)
    (h1 : find_first_of s ['['] ≠ npos) (h2 : find_last_of s [']'] ≠ npos)
    (hle : find_first_of s ['['] ≤ find_last_of s [']']) :
    hasData s = some ((s.drop (find_first_of s ['['])).take
      (find_last_of s [']'] - find_first_of s ['['] + 1)) ∧
    ((s.drop (find_first_of s ['['])).take
      (find_last_of s [']'] - find_first_of s ['['] + 1)).head? = some '[' ∧
    ((s.drop (find_first_of s ['['])).take
      (find_last_of s [']'] - find_first_of s ['['] + 1)).getLast? = some ']' := by
  obtain ⟨c1, hc1, hm1⟩ := find_first_of_found s ['['] h1
  obtain ⟨⟨c2, hc2, hm2⟩, -⟩ := find_last_of_found s [']'] h2
  have e1 : c1 = '[' := by simpa using hm1
  have e2 : c2 = ']' := by simpa using hm2
  subst e1 e2
  have hd : hasData s = substr s (find_first_of s ['['])
      (((find_last_of s [']'] + (2 ^ 64 - find_first_of s ['['])) % 2 ^ 64 + 1) % 2 ^ 64) := by
    unfold hasData
    simp only
    rw [if_neg (not_not.mpr hnull), if_pos ⟨h1, h2⟩]
  rw [hd]
  generalize find_first_of s ['['] = b1 at *
  generalize find_last_of s [']'] = b2 at *
  have hb2 : b2 < s.length := by
    by_contra hn
    rw [List.getElem?_eq_none (not_lt.mp hn)] at hc2
    exact Option.noConfusion hc2
  refine ⟨?_, ?_, ?_⟩
  · unfold substr
    rw [if_neg (by omega)]
    have hn : ((b2 + (2 ^ 64 - b1)) % 2 ^ 64 + 1) % 2 ^ 64 = b2 - b1 + 1 := by omega
    rw [hn]
  · rw [List.head?_eq_getElem?, List.getElem?_take_of_lt (by omega), List.getElem?_drop]
    simpa using hc1
  · rw [List.getLast?_eq_getElem?, List.length_take, List.length_drop,
      min_eq_left (by omega), List.getElem?_take_of_lt (by omega), List.getElem?_drop]
    have : b1 + (b2 - b1 + 1 - 1) = b2 := by omega
    rw [this]; exact hc2

/-- When the string holds no "null" and its last ']' comes before its first '[', the
`size_t` subtraction wraps: `hasData` returns the empty string when the two are adjacent,
and otherwise the whole rest of the string from the first '[' on, which begins with '[' and
does not end with ']'. -/
theorem hasData_reversed (s : List Char) (hlen : s.length < 2 ^ 64)
    (hnull : find s ['n', 'u', 'l', 'l'] = npos)
    (h1 : find_first_of s ['['] ≠ npos) (h2 : find_last_of s [']'] ≠ npos)
    (hlt : find_last_of s [']'] < find_first_of s ['[']) :
    hasData s = some (if find_last_of s [']'] + 1 = find_first_of s ['['] then []
      else s.drop (find_first_of s ['['])) ∧
    (s.drop (find_first_of s ['['])).head? = some '[' ∧
    (s.drop (find_first_of s ['['])).getLast? ≠ some ']' := by
  obtain ⟨c1, hc1, hm1⟩ := find_first_of_found s ['['] h1
  obtain ⟨-, hafter⟩ := find_last_of_found s [']'] h2
  have e1 : c1 = '[' := by simpa using hm1
  subst e1
  have hd : hasData s = substr s (find_first_of s ['['])
      (((find_last_of s [']'] + (2 ^ 64 - find_first_of s ['['])) % 2 ^ 64 + 1) % 2 ^ 64) := by
    unfold hasData
    simp only
    rw [if_neg (not_not.mpr hnull), if_pos ⟨h1, h2⟩]
  rw [hd]
  generalize find_first_of s ['['] = b1 at *
  generalize find_last_of s [']'] = b2 at *
  have hb1 : b1 < s.length := by
    by_contra hn
    rw [List.getElem?_eq_none (not_lt.mp hn)] at hc1
    exact Option.noConfusion hc1
  refine ⟨?_, ?_, ?_⟩
  · unfold substr
    rw [if_neg (by omega)]
    by_cases hadj : b2 + 1 = b1
    · have hn : ((b2 + (2 ^ 64 - b1)) % 2 ^ 64 + 1) % 2 ^ 64 = 0 := by omega
      rw [hn, if_pos hadj, List.take_zero]
    · have hn : s.length - b1 ≤ ((b2 + (2 ^ 64 - b1)) % 2 ^ 64 + 1) % 2 ^ 64 := by omega
      rw [if_neg hadj, List.take_of_length_le]
      rw [List.length_drop]; exact hn
  · rw [List.head?_eq_getElem?, List.getElem?_drop]
    simpa using hc1
  · intro hl
    rw [List.getLast?_eq_getElem?, List.length_drop, List.getElem?_drop] at hl
    have := hafter _ _ (by omega) hl
    simp at this

/-- C10: on the message `42]a[`, which holds no "null" and has both a '[' (at 4) and a ']'
(at 2), `hasData` returns `[`: a non-empty result that does not end with ']' and is not
the text between the first '[' and the last ']'. -/
theorem C10_hasData_wrapped_message :
    find wrappedMsg ['n', 'u', 'l', 'l'] = npos ∧
    find_first_of wrappedMsg ['['] = 4 ∧
    find_last_of wrappedMsg [']'] = 2 ∧
    hasData wrappedMsg = some ['['] ∧
    (['['] : List Char).getLast? ≠ some ']' := by
  decide

/-! ## Theorems about the code over doubles -/

/-- Feeding readings to `UpdateError` accumulates them into `i_error_` with `double`
addition, left to right. -/
theorem F64.foldl_UpdateError_i_error (es : List Double) (s : F64.PID) :
    (es.foldl F64.PID.UpdateError s).i_error_ = es.foldl Double.add s.i_error_ := by
  induction es generalizing s with
  | nil => rfl
  | cons e es ih => rw [List.foldl_cons, List.foldl_cons, ih]; rfl

/-- C3 as stated fails on the code's doubles: the readings `1e16`, `1`, `-1e16` are exact
doubles with sum `1`, and after the three updates on a fresh controller `i_error_` is `0`
(`1e16 + 1` rounds back to `1e16`). -/
theorem C3_sum_fails_in_double :
    driftReadings = [Double.fin 10000000000000000, Double.fin 1, Double.fin (-10000000000000000)] ∧
    (driftReadings.map Double.toRat).sum = 1 ∧
    (driftReadings.foldl F64.PID.UpdateError F64.PID.PID_ctor).i_error_ = Double.fin 0 ∧
    (driftReadings.foldl F64.PID.UpdateError F64.PID.PID_ctor).i_error_ ≠
      Double.fin ((driftReadings.map Double.toRat).sum) := by
  decide!

/-- C3, amended: calling `UpdateError e_1`, ..., `UpdateError e_N` in order on a freshly
constructed controller (also one that `Init` has given any gains) leaves `i_error_` equal
to the running `double` sum `((0.0 + e_1) + e_2) + ... + e_N`, each addition rounded; and
when the list is non-empty, written `es ++ [e]`, `p_error_` is its last reading `e`. -/
theorem C3_integral_is_running_double_sum (es : List Double) :
    (es.foldl F64.PID.UpdateError F64.PID.PID_ctor).i_error_ =
      es.foldl Double.add (Double.fin 0) ∧
    (∀ k_p k_i k_d : Double,
      (es.foldl F64.PID.UpdateError (F64.PID.PID_ctor.Init k_p k_i k_d)).i_error_ =
        es.foldl Double.add (Double.fin 0)) ∧
    (∀ e : Double, ((es ++ [e]).foldl F64.PID.UpdateError F64.PID.PID_ctor).p_error_ = e) := by
  refine ⟨?_, ?_, ?_⟩
  · rw [F64.foldl_UpdateError_i_error]; rfl
  · intro k_p k_i k_d
    rw [F64.foldl_UpdateError_i_error]; rfl
  · intro e
    rw [List.foldl_append]; rfl

/-- The zero sign passed to `round` only matters for an exact zero. -/
theorem Double.round_zeroNeg (q : ℚ) (b : Bool) (h : q = 0 → b = false) :
    Double.round q b = Double.round q false := by
  unfold Double.round
  by_cases hq : q = 0
  · rw [h hq]
  · rw [if_neg hq, if_neg hq]

/-- Where no partial sum is rounded, the running `double` sum is the exact sum: for finite
readings `qs` whose partial sums are all left alone by `round`, `i_error_` ends as the
exact sum of the readings. -/
theorem F64.integral_exact_of_no_rounding (qs : List ℚ)
    (h : ∀ k ≤ qs.length, Double.round ((qs.take k).sum) false = Double.fin ((qs.take k).sum)) :
    ((qs.map Double.fin).foldl F64.PID.UpdateError F64.PID.PID_ctor).i_error_ =
      Double.fin qs.sum := by
  rw [F64.foldl_UpdateError_i_error]
  show (qs.map Double.fin).foldl Double.add (Double.fin 0) = Double.fin qs.sum
  induction qs using List.reverseRecOn with
  | nil => rfl
  | append_singleton qs q ih =>
    have hpre : ∀ k ≤ qs.length,
        Double.round ((qs.take k).sum) false = Double.fin ((qs.take k).sum) := by
      intro k hk
      have := h k (by rw [List.length_append]; omega)
      rwa [List.take_append_of_le_length hk] at this
    rw [List.map_append, List.foldl_append, ih hpre]
    have hall := h (qs ++ [q]).length le_rfl
    rw [List.take_length] at hall
    show Double.round (qs.sum + q) (decide (qs.sum < 0) && decide (q < 0)) = _
    rw [Double.round_zeroNeg, List.sum_append, List.sum_singleton]
    · rw [List.sum_append, List.sum_singleton] at hall; exact hall
    · intro h0
      by_cases h1 : qs.sum < 0
      · have h2 : ¬ q < 0 := by intro h2; linarith
        simp [h2]
      · simp [h1]

/-- The readings `1`, `2`, `-3` meet the condition of `F64.integral_exact_of_no_rounding`:
the integral ends as their exact sum `0`. -/
theorem F64.integral_exact_small :
    ((([1, 2, -3] : List ℚ).map Double.fin).foldl F64.PID.UpdateError
      F64.PID.PID_ctor).i_error_ = Double.fin ([1, 2, -3] : List ℚ).sum :=
  F64.integral_exact_of_no_rounding [1, 2, -3] (by decide!)

/-- The two clamping statements over doubles, as one case split. -/
theorem F64.clampSteer_cases (x : Double) :
    F64.clampSteer x =
      if Double.gt x (.fin 1) = true then .fin 1
      else if Double.lt x (.fin (-1)) = true then .fin (-1) else x := by
  have hneg : Double.neg (.fin 1) = .fin (-1) := by decide
  have hlt : Double.lt (.fin 1) (.fin (-1)) = false := by decide
  unfold F64.clampSteer
  simp only [hneg]
  by_cases h : Double.gt x (.fin 1) = true
  · simp [h, hlt]
  · simp [h]

/-- A clamped value that is not NaN lies in `[-1, 1]`; a NaN passes both tests and stays a
NaN. -/
theorem F64.clampSteer_bounds (x : Double) :
    (x.isNaN = false →
      Double.le (.fin (-1)) (F64.clampSteer x) = true ∧
      Double.le (F64.clampSteer x) (.fin 1) = true) ∧
    (x.isNaN = true → F64.clampSteer x = Double.nan) := by
  rw [F64.clampSteer_cases]
  cases x with
  | nan => exact ⟨fun h => absurd h (by decide), fun _ => by decide⟩
  | inf s => cases s <;> exact ⟨fun _ => by decide, fun h => absurd h (by decide)⟩
  | negZero => exact ⟨fun _ => by decide, fun h => absurd h (by decide)⟩
  | fin q =>
    refine ⟨fun _ => ?_, fun h => absurd h (by simp [Double.isNaN])⟩
    simp only [Double.gt, Double.lt, Double.toRat, decide_eq_true_eq]
    by_cases h1 : (1 : ℚ) < q
    · rw [if_pos h1]; decide
    · rw [if_neg h1]
      by_cases h2 : q < -1
      · rw [if_pos h2]; decide
      · rw [if_neg h2]
        simp only [Double.le, Double.toRat, decide_eq_true_eq]
        exact ⟨not_lt.mp h2, not_lt.mp h1⟩

/-- The steering value the telemetry handler sends is `TotalError` of the state it finds,
put through the two tests: it lies in `[-1, 1]` when that value is not NaN, and is NaN
when it is. -/
theorem F64.onTelemetry_steering (pid : F64.PID) (cte : Double) :
    (F64.onTelemetry pid cte).1.steering_angle = F64.clampSteer pid.TotalError ∧
    (pid.TotalError.isNaN = false →
      Double.le (.fin (-1)) (F64.onTelemetry pid cte).1.steering_angle = true ∧
      Double.le (F64.onTelemetry pid cte).1.steering_angle (.fin 1) = true) ∧
    (pid.TotalError.isNaN = true → (F64.onTelemetry pid cte).1.steering_angle = Double.nan) :=
  ⟨rfl, (F64.clampSteer_bounds pid.TotalError).1, (F64.clampSteer_bounds pid.TotalError).2⟩

/-- C8: with `main`'s gains, after connecting and the telemetry readings `1e308`, `1e308`,
`-1e308` (all finite), the handler has sent the steering values `-0`, `-1`, `-1`, the
controller's `TotalError` is NaN, and the next event is sent NaN as its steering value,
which is not in `[-1, 1]`.  The same happens on the event after one whose reading is NaN. -/
theorem C8_nan_steering_sent :
    (F64.onTelemetry (F64.onConnection F64.mainPid) (Double.ofRat (10 ^ 308))).1.steering_angle =
      Double.negZero ∧
    (F64.onTelemetry (F64.afterEvents (F64.onConnection F64.mainPid) [Double.ofRat (10 ^ 308)])
      (Double.ofRat (10 ^ 308))).1.steering_angle = Double.fin (-1) ∧
    (F64.onTelemetry (F64.afterEvents (F64.onConnection F64.mainPid)
      [Double.ofRat (10 ^ 308), Double.ofRat (10 ^ 308)])
      (Double.ofRat (-10 ^ 308))).1.steering_angle = Double.fin (-1) ∧
    overflowedPid.TotalError = Double.nan ∧
    (F64.onTelemetry overflowedPid (Double.fin 0)).1.steering_angle = Double.nan ∧
    Double.le (Double.fin (-1))
      (F64.onTelemetry overflowedPid (Double.fin 0)).1.steering_angle = false ∧
    Double.le (F64.onTelemetry overflowedPid (Double.fin 0)).1.steering_angle
      (Double.fin 1) = false ∧
    (F64.onTelemetry (F64.afterEvents (F64.onConnection F64.mainPid) [Double.nan])
      (Double.fin 0)).1.steering_angle = Double.nan := by
  decide!
